import Mathlib

/-!
Verification of the credential and secret management subsystem of the
`product-apim-tooling` CLI, as a shallow embedding of the Go sources
`import-export-cli/mi/utils/utils.go` (secret encryption pipeline) and the
OAuth/basic-auth credential resolver file (`ExecutePreCommandWithBasicAuth`,
`ExecutePreCommandWithOAuth`, `GetClientIDSecret`, `GetOAuthTokens`).

External collaborators (the Go standard library's RSA/x509/keystore/JSON/HTTP
calls, file reads, and interactive prompts) are modelled as oracle fields of
explicit "external world" structures; everything the repository's own code
does (branching, string building, ordering of effects, error propagation)
is embedded faithfully.  Side effects (console prints, file writes, HTTP
requests, credential-file persistence) are reified as effect traces so that
claims about "no network call happens" or "nothing is written" become
statements about the trace.
-/

namespace ApimTooling

/-- Embeds the ASCII case folding performed by Go's `strings.EqualFold` on
the ASCII range (the recognized labels compared against are all ASCII). -/
def goToLower (c : Char) : Char :=
  if 'A' ≤ c ∧ c ≤ 'Z' then Char.ofNat (c.toNat + 32) else c

/-- Embeds Go `strings.EqualFold s t` restricted to ASCII simple folding. -/
def equalFold (s t : String) : Bool :=
  s.data.map goToLower == t.data.map goToLower

/-- The standard base64 alphabet, as used by Go `base64.StdEncoding`. -/
def base64Alphabet : List Char :=
  "ABCDEFGHIJKLMNOPQRSTUVWXYZabcdefghijklmnopqrstuvwxyz0123456789+/".data

/-- One character of the standard base64 alphabet. -/
def b64char (n : Nat) : Char := base64Alphabet.getD n 'A'

/-- Embeds Go `base64.StdEncoding.EncodeToString` on a byte list
(standard alphabet, `=`-padded). -/
def base64Encode : List Nat → String
  | [] => ""
  | [b0] =>
    String.mk [b64char (b0 / 4), b64char (b0 % 4 * 16), '=', '=']
  | [b0, b1] =>
    String.mk [b64char (b0 / 4), b64char (b0 % 4 * 16 + b1 / 16),
               b64char (b1 % 16 * 4), '=']
  | b0 :: b1 :: b2 :: rest =>
    String.mk [b64char (b0 / 4), b64char (b0 % 4 * 16 + b1 / 16),
               b64char (b1 % 16 * 4 + b2 / 64), b64char (b2 % 64)]
      ++ base64Encode rest

/-- The UTF-8 bytes of a string, as Go's `[]byte(s)` conversion (the char
list is encoded exactly as `String.toUTF8` encodes it). -/
def strBytes (s : String) : List Nat :=
  (s.data.flatMap String.utf8EncodeChar).map (fun b => b.toNat)

/-- Embeds `GetBase64EncodedCredentials`: base64 of `key ++ ":" ++ secret`. -/
def GetBase64EncodedCredentials (key secret : String) : String :=
  base64Encode (strBytes (key ++ ":" ++ secret))

/-- Whitespace predicate of Go's `strings.TrimSpace` restricted to the
ASCII space characters (space, tab, newline, carriage return, vertical
tab, form feed). -/
def goIsSpace (c : Char) : Bool :=
  c = ' ' || c = '\t' || c = '\n' || c = '\r' || c.toNat = 11 || c.toNat = 12

/-- Embeds Go `strings.TrimSpace` (ASCII range): drops leading and
trailing whitespace characters. -/
def TrimSpace (s : String) : String :=
  String.mk (((s.data.dropWhile goIsSpace).reverse.dropWhile goIsSpace).reverse)

/-- Go map read `m[k]` on an association-list model of a string map: the
value of the first matching key, or the zero value `""` when absent. -/
def lookupStr (m : List (String × String)) (k : String) : String :=
  match m.find? (fun p => p.1 == k) with
  | some p => p.2
  | none => ""

/-! ## Secret encryption pipeline (`import-export-cli/mi/utils/utils.go`)

Go maps `map[string]string` are embedded as association lists
`List (String × String)`; Go's unspecified map iteration order becomes the
list order, over which the theorems quantify. -/

/-- Embeds the `metaData` struct (yaml keys `name` / `namespace`). -/
structure metaData where
  Name : String
  Namespace : String
  deriving DecidableEq, Repr

/-- Embeds the `k8sSecretConfig` struct.  The Go field `Type` is a Lean
keyword, embedded as `Type'`; the misspelt field name `APIVerion`
(yaml key `apiVersion`) is preserved from the source. -/
structure k8sSecretConfig where
  APIVerion : String
  Kind : String
  MetaData : metaData
  StringData : List (String × String)
  Type' : String
  deriving DecidableEq, Repr

/-- Embeds the `SecretConfig` struct. -/
structure SecretConfig where
  OutputType : String
  Algorithm : String
  InputType : String
  InputFile : String
  PlainTextAlias : String
  PlainTextSecretText : String
  deriving DecidableEq, Repr

/-- The two RSA padding schemes dispatched by `EncryptSecrets`
(`encryptPKCS1v15` and `encryptOAEP`, the latter with SHA-1 as hash and
MGF1 hash and a nil label). -/
inductive Scheme
  | pkcs1v15
  | oaep
  deriving DecidableEq, Repr

/-- Embeds `*rsa.PublicKey` (modulus and public exponent). -/
structure RsaPublicKey where
  N : Nat
  E : Nat
  deriving DecidableEq, Repr

/-- Embeds `*rsa.PrivateKey` to the extent `getEncryptionKey` uses it:
only its embedded `PublicKey` is read. -/
structure RsaPrivateKey where
  PublicKey : RsaPublicKey
  deriving DecidableEq, Repr

/-- The dynamic type of the value returned by `x509.ParsePKCS8PrivateKey`:
an `*rsa.PrivateKey`, or a private key of some other dynamic type
(e.g. `*ecdsa.PrivateKey`), on which the non-comma-ok type assertion
`key.(*rsa.PrivateKey)` panics. -/
inductive ParsedKey
  | rsa (k : RsaPrivateKey)
  | other (kind : String)
  deriving DecidableEq, Repr

/-- Embeds `keystore.PrivateKeyEntry`: the DER bytes of the PKCS#8 container
that `getEncryptionKey` hands to `x509.ParsePKCS8PrivateKey`. -/
structure PrivateKeyEntry where
  PrivateKey : List Nat
  deriving DecidableEq, Repr

/-- Embeds the loaded `keystore.KeyStore` handle: `GetPrivateKeyEntry`
looks an entry up by alias and key password. -/
structure KeyStore where
  getPrivateKeyEntry : String → List Nat → Except String PrivateKeyEntry

/-- The outcome of a Go computation that may return a value, return an
`error`, or abort with a runtime panic. -/
inductive GoResult (α : Type)
  | ok (a : α)
  | error (msg : String)
  | panicked (msg : String)
  deriving Repr, DecidableEq

/-- Reified side effects of the secret-encryption pipeline. -/
inductive SecretsEffect
  | consoleLine (line : String)
  | propertiesFile (path : String) (entries : List (String × String))
  | yamlFile (path : String) (cfg : k8sSecretConfig)
  | cryptoCall (scheme : Scheme) (alias' plain : String)
  deriving DecidableEq, Repr

/-- External collaborators of the secret pipeline: the Go standard library
and third-party calls whose internals are outside this repository. -/
structure SecretsExt where
  /-- `base64.StdEncoding.DecodeString` (the error is discarded with `_`
  at both call sites in `getEncryptionKey`). -/
  base64Decode : String → List Nat
  /-- `os.Open`: whether the keystore file opens. -/
  osOpen : String → Except String Unit
  /-- `keystore.New()` followed by `keyStore.Load(f, password)`,
  keyed by the file name and store password. -/
  ksLoad : String → List Nat → Except String KeyStore
  /-- `x509.ParsePKCS8PrivateKey` on the entry's DER bytes. -/
  parsePKCS8 : List Nat → Except String ParsedKey
  /-- The RSA primitive with its random reader: `rsa.EncryptPKCS1v15` or
  `rsa.EncryptOAEP(sha1.New(), rand.Reader, key, plain, nil)`, producing
  ciphertext bytes or an error (e.g. message too long for the key). -/
  rsaEncrypt : Scheme → RsaPublicKey → String → Except String (List Nat)
  /-- `properties.MustLoadFile(..).Map()` / `readPropertiesFromFile`. -/
  readPropsFile : String → List (String × String)

/-- Embeds `IsConsole`. -/
def IsConsole (outputType : String) : Bool := equalFold outputType "console"

/-- Embeds `IsFile`. -/
def IsFile (outputType : String) : Bool := equalFold outputType "file"

/-- Embeds `IsK8`. -/
def IsK8 (outputType : String) : Bool := equalFold outputType "k8"

/-- Embeds `IsPKCS1Encryption`. -/
def IsPKCS1Encryption (algorithm : String) : Bool :=
  equalFold algorithm "RSA/ECB/PKCS1Padding"

/-- Embeds `IsOAEPEncryption`. -/
def IsOAEPEncryption (algorithm : String) : Bool :=
  equalFold algorithm "RSA/ECB/OAEPWithSHA1AndMGF1Padding"

/-- Embeds `IsMapWithNonEmptyValues`: walks the map, and on the first value
that is empty after `strings.TrimSpace` prints `Invalid input for <key>`
and returns `false`; returns `true` when every value is non-empty.
The returned list is the trace of printed lines. -/
def IsMapWithNonEmptyValues : List (String × String) → List SecretsEffect × Bool
  | [] => ([], true)
  | (key, input) :: rest =>
    if (TrimSpace input).length = 0 then
      ([SecretsEffect.consoleLine ("Invalid input for " ++ key)], false)
    else
      IsMapWithNonEmptyValues rest

/-- Embeds `getSecretFilePath`: `<currentDir>/security/<fileName>`
(the `security` directory is created if absent; directory creation is not
an observable output and is not traced). -/
def getSecretFilePath (currentDir fileName : String) : String :=
  currentDir ++ "/security/" ++ fileName

/-- Embeds `printSecretsToConsole`: one `alias : secret` line per entry. -/
def printSecretsToConsole (secrets : List (String × String)) : List SecretsEffect :=
  secrets.map (fun p => SecretsEffect.consoleLine (p.1 ++ " : " ++ p.2))

/-- Embeds `printSecretsToPropertiesFile` (which writes via
`WritePropertiesToFile` and reports the created path). -/
def printSecretsToPropertiesFile (currentDir : String)
    (secrets : List (String × String)) : List SecretsEffect :=
  let secretFilePath := getSecretFilePath currentDir "wso2mi-secrets.properties"
  [SecretsEffect.propertiesFile secretFilePath secrets,
   SecretsEffect.consoleLine ("Secret properties file created in " ++ secretFilePath)]

/-- Embeds `printSecretsToYamlFile`: builds the fixed-shape Kubernetes
secret document and writes it to `wso2mi-secrets.yaml` in the `security`
subdirectory, then prints the two advisory lines. -/
def printSecretsToYamlFile (currentDir : String)
    (secrets : List (String × String)) : List SecretsEffect :=
  let secretConfig : k8sSecretConfig :=
    { APIVerion := "v1"
      Kind := "Secret"
      StringData := secrets
      Type' := "Opaque"
      MetaData := { Name := "wso2misecret", Namespace := "default" } }
  let secretFilePath := getSecretFilePath currentDir "wso2mi-secrets.yaml"
  [SecretsEffect.yamlFile secretFilePath secretConfig,
   SecretsEffect.consoleLine ("Kubernetes secret file created in " ++ secretFilePath
     ++ " with default name and namespace"),
   SecretsEffect.consoleLine "You can change the default values as required before applying."]

/-- Embeds `getPlainTextSecrets`: bulk properties file when the input type
is `file`, else the single alias/value pair from the config. -/
def getPlainTextSecrets (ext : SecretsExt) (secretConfig : SecretConfig) :
    List (String × String) :=
  if IsFile secretConfig.InputType then
    ext.readPropsFile secretConfig.InputFile
  else
    [(secretConfig.PlainTextAlias, secretConfig.PlainTextSecretText)]

/-- Embeds `readKeyStore`: open the file, then load the keystore with the
store password; either failure is returned as the error. -/
def readKeyStore (ext : SecretsExt) (filename : String) (password : List Nat) :
    Except String KeyStore :=
  match ext.osOpen filename with
  | Except.error e => Except.error e
  | Except.ok _ =>
    match ext.ksLoad filename password with
    | Except.error e => Except.error e
    | Except.ok keyStore => Except.ok keyStore

/-- Embeds `getEncryptionKey`.  Statement order follows the source: the
type assertion `key.(*rsa.PrivateKey)` is executed *before* the
`if err != nil` check guarding the `"Parsing Key Entry"` error return, so
when `x509.ParsePKCS8PrivateKey` fails (the interface is nil) or yields a
non-RSA key, the assertion panics and that error branch is never reached. -/
def getEncryptionKey (ext : SecretsExt) (keyStoreConfigMap : List (String × String)) :
    GoResult RsaPublicKey :=
  let keyStorePath := lookupStr keyStoreConfigMap "secret.keystore.location"
  let keyStorePassword := ext.base64Decode (lookupStr keyStoreConfigMap "secret.keystore.password")
  match readKeyStore ext keyStorePath keyStorePassword with
  | Except.error e => GoResult.error ("Reading Key Store: " ++ e)
  | Except.ok keyStore =>
    let keyAlias := lookupStr keyStoreConfigMap "secret.keystore.key.alias"
    let keyPassword := ext.base64Decode (lookupStr keyStoreConfigMap "secret.keystore.key.password")
    match keyStore.getPrivateKeyEntry keyAlias keyPassword with
    | Except.error e => GoResult.error ("Reading Key Entry: " ++ e)
    | Except.ok pke =>
      match ext.parsePKCS8 pke.PrivateKey with
      | Except.ok (ParsedKey.rsa rsaKey) =>
        -- parse succeeded with an RSA key: the assertion succeeds and
        -- err is nil, so the error branch is skipped
        GoResult.ok rsaKey.PublicKey
      | Except.ok (ParsedKey.other kind) =>
        -- parse succeeded but the dynamic type is not *rsa.PrivateKey:
        -- the type assertion panics
        GoResult.panicked ("interface conversion: interface \x7b\x7d is "
          ++ kind ++ ", not *rsa.PrivateKey")
      | Except.error _ =>
        -- parse failed: key is a nil interface and the type assertion on
        -- the next source line panics before the err check, so the
        -- `return nil, errors.New("Parsing Key Entry: " + err.Error())`
        -- branch is unreachable
        GoResult.panicked "interface conversion: interface \x7b\x7d is nil, not *rsa.PrivateKey"

/-- Embeds `encryptOAEP`: the RSA-OAEP primitive (SHA-1, MGF1, nil label)
followed by standard base64 encoding of the ciphertext bytes. -/
def encryptOAEP (ext : SecretsExt) (key : RsaPublicKey) (plainText : String) :
    Except String String :=
  match ext.rsaEncrypt Scheme.oaep key plainText with
  | Except.error e => Except.error e
  | Except.ok encryptedBytes => Except.ok (base64Encode encryptedBytes)

/-- Embeds `encryptPKCS1v15`: the RSA PKCS#1 v1.5 primitive followed by
standard base64 encoding of the ciphertext bytes. -/
def encryptPKCS1v15 (ext : SecretsExt) (key : RsaPublicKey) (plainText : String) :
    Except String String :=
  match ext.rsaEncrypt Scheme.pkcs1v15 key plainText with
  | Except.error e => Except.error e
  | Except.ok encryptedBytes => Except.ok (base64Encode encryptedBytes)

/-- The `encryptFunc` argument `EncryptSecrets` passes to `encrypt`:
`encryptPKCS1v15` or `encryptOAEP`, identified by scheme. -/
def encryptFunction (scheme : Scheme) (ext : SecretsExt) (key : RsaPublicKey)
    (plainText : String) : Except String String :=
  match scheme with
  | Scheme.pkcs1v15 => encryptPKCS1v15 ext key plainText
  | Scheme.oaep => encryptOAEP ext key plainText

/-- Embeds `encrypt`: applies the chosen encrypt function to every entry,
returning on the first error with `nil` for the map; the trace records one
`cryptoCall` per attempted encryption. -/
def encrypt (scheme : Scheme) (ext : SecretsExt) (encryptionKey : RsaPublicKey) :
    List (String × String) → List SecretsEffect × Except String (List (String × String))
  | [] => ([], Except.ok [])
  | (alias', plainText) :: rest =>
    let call := SecretsEffect.cryptoCall scheme alias' plainText
    match encryptFunction scheme ext encryptionKey plainText with
    | Except.error e => ([call], Except.error e)
    | Except.ok encryptedSecret =>
      let tailRes := encrypt scheme ext encryptionKey rest
      (call :: tailRes.1,
       match tailRes.2 with
       | Except.error e => Except.error e
       | Except.ok m => Except.ok ((alias', encryptedSecret) :: m))

/-- Embeds `EncryptSecrets`: read the keystore properties, derive the
public encryption key, gather the plaintext secrets, dispatch on
`IsPKCS1Encryption` to one of the two schemes, and emit the encrypted map
to the sink selected by `IsK8` / `IsFile` / console default.  Returns the
effect trace together with the Go outcome (returned error, or a panic
propagated out of `getEncryptionKey`). -/
def EncryptSecrets (ext : SecretsExt) (currentDir : String)
    (keyStorePropertiesFile : String) (secretConfig : SecretConfig) :
    List SecretsEffect × GoResult Unit :=
  let keyStoreConfigMap := ext.readPropsFile keyStorePropertiesFile
  match getEncryptionKey ext keyStoreConfigMap with
  | GoResult.panicked m => ([], GoResult.panicked m)
  | GoResult.error e => ([], GoResult.error e)
  | GoResult.ok encryptionKey =>
    let plainTextSecrets := getPlainTextSecrets ext secretConfig
    let scheme := if IsPKCS1Encryption secretConfig.Algorithm
      then Scheme.pkcs1v15 else Scheme.oaep
    let encRes := encrypt scheme ext encryptionKey plainTextSecrets
    match encRes.2 with
    | Except.error e => (encRes.1, GoResult.error e)
    | Except.ok encryptedSecrets =>
      if IsK8 secretConfig.OutputType then
        (encRes.1 ++ printSecretsToYamlFile currentDir encryptedSecrets, GoResult.ok ())
      else if IsFile secretConfig.OutputType then
        (encRes.1 ++ printSecretsToPropertiesFile currentDir encryptedSecrets, GoResult.ok ())
      else
        (encRes.1 ++ printSecretsToConsole encryptedSecrets, GoResult.ok ())

/-! ## Credential resolver and OAuth client (the unnamed utils source file)

Constants referenced by that file but declared elsewhere in the repository
are immaterial to the claims (they only appear inside printed messages);
they are given their conventional values. -/

/-- Log prefix constant from the repository's shared utils (value only
appears inside logged text). -/
def LogPrefixInfo : String := "[INFO]: "

/-- Log prefix constant from the repository's shared utils. -/
def LogPrefixWarning : String := "[WARN]: "

/-- Log prefix constant from the repository's shared utils. -/
def LogPrefixError : String := "[ERROR]: "

/-- Name of the per-environment keys file (only printed in messages). -/
def EnvKeysAllFilePath : String := "env_keys_all.yaml"

/-- Name of the main configuration file (only printed in messages). -/
def MainConfigFileName : String := "main_config.yaml"

/-- The CLI's project name (only printed in messages). -/
def ProjectName : String := "apimcli"

/-- `DefaultTokenValidityPeriod` constant used in the token request body. -/
def DefaultTokenValidityPeriod : String := "3600"

/-- `Content-Type` header name constant. -/
def HeaderContentType : String := "Content-Type"

/-- `Authorization` header name constant. -/
def HeaderAuthorization : String := "Authorization"

/-- `Accept` header name constant. -/
def HeaderAccept : String := "Accept"

/-- `application/json` header value constant. -/
def HeaderValueApplicationJSON : String := "application/json"

/-- `application/x-www-form-urlencoded` header value constant. -/
def HeaderValueXWWWFormUrlEncoded : String := "application/x-www-form-urlencoded"

/-- Embeds the `EnvKeys` record persisted per environment: the positional
literal `EnvKeys{clientID, encryptedClientSecret, username}` at the persist
site fixes the field order (client identifier, encrypted client secret,
username — the spec's `EnvironmentCredentialRecord`). -/
structure EnvKeys where
  ClientID : String
  ClientSecret : String
  Username : String
  deriving DecidableEq, Repr

/-- Embeds the `RegistrationResponse` struct populated by
`json.Unmarshal` from the registration response body. -/
structure RegistrationResponse where
  ClientID : String
  ClientSecret : String
  deriving DecidableEq, Repr

/-- Embeds the resty HTTP response as used by this file: numeric status
code, status line text (`resp.Status()`), body bytes (`resp.Body()`), and
the error payload (`resp.Error()`). -/
structure HTTPResponse where
  statusCode : Nat
  status : String
  body : String
  errorBody : String
  deriving DecidableEq, Repr

/-- Hex digit characters (used by the modelled password hash). -/
def hexDigit (n : Nat) : Char := "0123456789abcdef".data.getD (n % 16) '0'

/-- Modelled from the spec: `GetMD5Hash` lives outside the given sources;
the spec (§3, §9) fixes only that the stored-secret encryption key is "the
hash of the password".  Modelled as a deterministic 32-hex-digit digest of
the password bytes; only determinism and the hex-digit alphabet of the
output are relied on by the theorems. -/
def GetMD5Hash (text : String) : String :=
  let h := (strBytes text).foldl (fun acc b => (acc * 31 + b) % (2 ^ 128)) 5381
  String.mk ((List.range 32).map (fun i => hexDigit (h / 16 ^ (31 - i))))

/-- Modelled from the spec: `Encrypt` lives outside the given sources; the
spec (§6) describes it as "AES/XOR-style symmetric encryption keyed by a
hash of the account password".  Modelled as codepoint-wise XOR with the
cycled key characters; the call site passes the key exactly as the source
does (`Encrypt([]byte(GetMD5Hash(password)), clientSecret)`, the key being
the bytes of the hash string). -/
def Encrypt (key : String) (text : String) : String :=
  let ks := key.data
  String.mk ((List.range text.data.length).map (fun i =>
    Char.ofNat ((text.data.getD i ' ').toNat ^^^ (ks.getD (i % ks.length) ' ').toNat)))

/-- Reified side effects of the credential resolver and OAuth client. -/
inductive OAuthEffect
  | printLine (s : String)
  | logLine (s : String)
  | httpPost (url : String) (headers : List (String × String)) (body : String)
  | promptUsername
  | promptPassword
  | persistKeys (env : String) (keys : EnvKeys)
  deriving DecidableEq, Repr

/-- The outcome of a Go function in this file: a returned value, or a
process exit (`os.Exit(1)` on credential mismatch, or `HandleErrorAndExit`
which prints a diagnostic and exits). -/
inductive RunResult (α : Type)
  | ret (a : α)
  | exit (code : Nat)
  deriving Repr, DecidableEq

/-- External collaborators of the credential resolver: configuration and
keys-file readers, interactive prompts, JSON decoding and HTTP transport.
The file-path arguments threaded through the Go helpers are fixed per run,
so the oracles are keyed by environment name alone. -/
structure OAuthExt where
  /-- `EnvExistsInMainConfigFile(env, MainConfigFilePath)`. -/
  envExistsInMainConfig : String → Bool
  /-- `GetAPIMEndpointOfEnv`. -/
  getAPIMEndpoint : String → String
  /-- `GetRegistrationEndpointOfEnv`. -/
  getRegistrationEndpoint : String → String
  /-- `GetTokenEndpointOfEnv`. -/
  getTokenEndpoint : String → String
  /-- `EnvExistsInKeysFile(env, envKeysAllFilePath)`. -/
  envExistsInKeysFile : String → Bool
  /-- `GetUsernameOfEnv`. -/
  getUsernameOfEnv : String → String
  /-- `GetClientIDOfEnv`. -/
  getClientIDOfEnv : String → String
  /-- `GetClientSecretOfEnv(env, password, file)`: the cached client secret
  decrypted under a key derived from the freshly supplied password. -/
  getClientSecretOfEnv : String → String → String
  /-- What the operator types at `PromptForUsername()`. -/
  promptUsernameInput : String
  /-- What the operator types at `PromptForPassword()`. -/
  promptPasswordInput : String
  /-- `InvokePOSTRequest(url, headers, body)`: transport error or response. -/
  invokePOST : String → List (String × String) → String → Except String HTTPResponse
  /-- `json.Unmarshal` into `RegistrationResponse` (fields populated so
  far, and the `error` result). -/
  unmarshalReg : String → RegistrationResponse × Option String
  /-- `json.Unmarshal` into the token response `map[string]string`. -/
  unmarshalTokenMap : String → List (String × String)

/-- The username collected on the first-use (cache-miss) path of both
resolvers: the flag value when supplied, else the trimmed interactive
input (source: `username = flagUsername` / `username =
strings.TrimSpace(PromptForUsername())`). -/
def missUsername (ext : OAuthExt) (flagUsername : String) : String :=
  if flagUsername ≠ "" then flagUsername else TrimSpace ext.promptUsernameInput

/-- The password collected on the first-use (cache-miss) path of both
resolvers: the flag value when supplied alongside a flag username, else
the interactive input. -/
def missPassword (ext : OAuthExt) (flagUsername flagPassword : String) : String :=
  if flagUsername ≠ "" then
    (if flagPassword = "" then ext.promptPasswordInput else flagPassword)
  else
    ext.promptPasswordInput

/-- The console/prompt effects of first-use credential collection. -/
def missPromptTrace (flagUsername flagPassword : String) : List OAuthEffect :=
  if flagUsername ≠ "" then
    (if flagPassword = "" then
      [OAuthEffect.printLine ("For Username: " ++ flagUsername), OAuthEffect.promptPassword]
    else [])
  else
    [OAuthEffect.promptUsername, OAuthEffect.promptPassword]

/-- The fixed dynamic-client-registration request body (the dedented JSON
application descriptor; interior whitespace layout is immaterial and the
claims never inspect it). -/
def registrationRequestBody : String :=
  "\x7b\"clientName\": \"rest_api_publisher\",\n" ++
  "\"callbackUrl\": \"www.google.lk\",\n" ++
  "\"grantType\":\"password refresh_token\",\n" ++
  "\"saasApp\": true,\n" ++
  "\"owner\": \"admin\",\n" ++
  "\"tokenScope\": \"Production\"\n\x7d"

/-- Embeds `GetClientIDSecret`: POSTs the fixed registration descriptor
with basic auth; on a transport error exits via `HandleErrorAndExit`
("Error in connecting."); on 200/201 unmarshals the response and returns
the client pair together with the unmarshal error; on any other status
prints the error payload and body, then exits on 401 ("Incorrect
Username/Password combination.") and otherwise returns empty credentials
with a `Request didn't respond 200 OK` error. -/
def GetClientIDSecret (ext : OAuthExt) (username password url : String) :
    List OAuthEffect × RunResult (String × String × Option String) :=
  let body := registrationRequestBody
  let headers := [(HeaderContentType, HeaderValueApplicationJSON),
                  (HeaderAuthorization,
                   "Basic " ++ GetBase64EncodedCredentials username password)]
  let post := OAuthEffect.httpPost url headers body
  match ext.invokePOST url headers body with
  | Except.error _ =>
    ([post, OAuthEffect.printLine "Error in connecting."], RunResult.exit 1)
  | Except.ok resp =>
    let lg := OAuthEffect.logLine ("Getting ClientID, ClientSecret: Status - " ++ resp.status)
    if resp.statusCode == 200 || resp.statusCode == 201 then
      let rr := ext.unmarshalReg resp.body
      ([post, lg],
       RunResult.ret (rr.1.ClientID, rr.1.ClientSecret, rr.2))
    else
      let p1 := OAuthEffect.printLine ("Error: " ++ resp.errorBody)
      let p2 := OAuthEffect.printLine ("Body: " ++ resp.body)
      if resp.statusCode == 401 then
        ([post, lg, p1, p2,
          OAuthEffect.printLine "Incorrect Username/Password combination."],
         RunResult.exit 1)
      else
        ([post, lg, p1, p2],
         RunResult.ret ("", "", some ("Request didn't respond 200 OK: " ++ resp.status)))

/-- Embeds `GetOAuthTokens`: the password-grant token request; a transport
error or a non-200 status exits via `HandleErrorAndExit`; on 200 the
response map is returned (the unmarshal error is discarded with `_`). -/
def GetOAuthTokens (ext : OAuthExt)
    (username password b64EncodedClientIDClientSecret url : String) :
    List OAuthEffect × RunResult (List (String × String)) :=
  let validityPeriod := DefaultTokenValidityPeriod
  let body := "grant_type=password&username=" ++ username ++ "&password=" ++ password
    ++ "&validity_period=" ++ validityPeriod ++ "&scope=apim:api_view"
  let headers := [(HeaderContentType, HeaderValueXWWWFormUrlEncoded),
                  (HeaderAuthorization, "Bearer " ++ b64EncodedClientIDClientSecret),
                  (HeaderAccept, HeaderValueApplicationJSON)]
  let lg := OAuthEffect.logLine (LogPrefixError ++ "connecting to " ++ url)
  let post := OAuthEffect.httpPost url headers body
  match ext.invokePOST url headers body with
  | Except.error _ =>
    ([lg, post, OAuthEffect.printLine "Unable to Connect."], RunResult.exit 1)
  | Except.ok resp =>
    if resp.statusCode != 200 then
      ([lg, post, OAuthEffect.printLine ("Unable to connect. Status: " ++ resp.status)],
       RunResult.exit 1)
    else
      ([lg, post], RunResult.ret (ext.unmarshalTokenMap resp.body))

/-- Embeds `ExecutePreCommandWithBasicAuth`: resolves username/password
for the environment (cached-record username guard, flag values, prompts)
and returns the base64 `username:password` credential together with the
API manager endpoint; no network call is performed in this mode. -/
def ExecutePreCommandWithBasicAuth (ext : OAuthExt)
    (environment flagUsername flagPassword mainConfigFilePath envKeysAllFilePath : String) :
    List OAuthEffect × RunResult (String × String × Option String) :=
  if ext.envExistsInMainConfig environment then
    let apiManagerEndpoint := ext.getAPIMEndpoint environment
    let intro := [OAuthEffect.logLine (LogPrefixInfo ++ "Environment: '" ++ environment ++ "'")]
    -- shared tail: encode the credentials and return (source lines 116-122)
    let finish := fun (tr : List OAuthEffect) (username password : String) =>
      let b64encodedCredentials := GetBase64EncodedCredentials username password
      (tr ++ [OAuthEffect.logLine (LogPrefixInfo
         ++ "[Remove in Production] Base64EncodedCredentials: " ++ b64encodedCredentials)],
       RunResult.ret (b64encodedCredentials, apiManagerEndpoint, none))
    if ext.envExistsInKeysFile environment then
      let username := ext.getUsernameOfEnv environment
      if flagUsername ≠ "" then
        if flagUsername ≠ username then
          (intro ++
           [OAuthEffect.printLine (LogPrefixWarning
              ++ "Username entered with flag -u for the environment '" ++ environment
              ++ "' is not the same as username found in file '" ++ EnvKeysAllFilePath ++ "'"),
            OAuthEffect.printLine ("Execute '" ++ ProjectName ++ " reset-user -e "
              ++ environment ++ "' to clear user data")],
           RunResult.exit 1)
        else
          if flagPassword = "" then
            finish (intro ++ [OAuthEffect.printLine ("For Username: " ++ username),
                              OAuthEffect.promptPassword])
              username ext.promptPasswordInput
          else
            finish intro username flagPassword
      else
        if flagPassword ≠ "" then
          finish intro username flagPassword
        else
          finish (intro ++ [OAuthEffect.printLine ("For username: " ++ username),
                            OAuthEffect.promptPassword])
            username ext.promptPasswordInput
    else
      -- first use of the environment: collect fresh values
      let username := missUsername ext flagUsername
      let password := missPassword ext flagUsername flagPassword
      -- the trailing `if err != nil` in this branch can never fire (err is
      -- never assigned) and contributes nothing
      finish (intro ++ missPromptTrace flagUsername flagPassword
          ++ [OAuthEffect.printLine ("\nUsername: " ++ username ++ "\n")])
        username password
  else
    if environment = "" then
      ([], RunResult.ret ("", "",
        some ("no environment specified. Either specify it using the -e flag or name one of "
          ++ "the environments in '" ++ MainConfigFileName ++ "' to 'default'")))
    else
      ([], RunResult.ret ("", "",
        some ("Details incorrect/unavailable for environment '" ++ environment
          ++ "' in " ++ mainConfigFilePath)))

/-- The password-grant tail shared by both cache paths of
`ExecutePreCommandWithOAuth` (source lines 239-246): runs `GetOAuthTokens`
(which exits the process on a transport error or a non-200 status), reads
`access_token` from the response map (the returned error is discarded with
`_`), and returns the token with the API manager endpoint. -/
def oauthTokenStep (ext : OAuthExt) (apiManagerEndpoint tokenEndpoint : String)
    (tr : List OAuthEffect) (username password clientID clientSecret : String) :
    List OAuthEffect × RunResult (String × String × Option String) :=
  let t := GetOAuthTokens ext username password
    (GetBase64EncodedCredentials clientID clientSecret) tokenEndpoint
  match t.2 with
  | RunResult.exit c => (tr ++ t.1, RunResult.exit c)
  | RunResult.ret responseDataMap =>
    let accessToken := lookupStr responseDataMap "access_token"
    (tr ++ t.1 ++ [OAuthEffect.logLine (LogPrefixInfo
       ++ "[Remove in Production] AccessToken: " ++ accessToken)],
     RunResult.ret (accessToken, apiManagerEndpoint, none))

/-- Embeds `ExecutePreCommandWithOAuth`: resolves credentials as in the
basic-auth variant; on a cache hit reuses the cached client id and the
cached client secret decrypted under the fresh password; on a cache miss
performs dynamic client registration, prints (but does not act on) any
registration error, persists the new `EnvKeys` record with the client
secret encrypted under the MD5 hash of the password, and in both cases
proceeds to the password-grant token exchange. -/
def ExecutePreCommandWithOAuth (ext : OAuthExt)
    (environment flagUsername flagPassword mainConfigFilePath envKeysAllFilePath : String) :
    List OAuthEffect × RunResult (String × String × Option String) :=
  if ext.envExistsInMainConfig environment then
    let registrationEndpoint := ext.getRegistrationEndpoint environment
    let apiManagerEndpoint := ext.getAPIMEndpoint environment
    let tokenEndpoint := ext.getTokenEndpoint environment
    let intro := [OAuthEffect.logLine (LogPrefixInfo ++ "Environment: '" ++ environment ++ "'"),
                  OAuthEffect.logLine (LogPrefixInfo ++ "Reg Endpoint read: " ++ registrationEndpoint)]
    -- shared tail: the password-grant token exchange (source lines 239-246)
    let tokenStep := oauthTokenStep ext apiManagerEndpoint tokenEndpoint
    if ext.envExistsInKeysFile environment then
      let username := ext.getUsernameOfEnv environment
      if flagUsername ≠ "" then
        if flagUsername ≠ username then
          (intro ++
           [OAuthEffect.printLine (LogPrefixWarning
              ++ "Username entered with flag -u for the environment '" ++ environment
              ++ "' is not the same as username found in file '" ++ EnvKeysAllFilePath ++ "'"),
            OAuthEffect.printLine ("Execute '" ++ ProjectName ++ " reset-user -e "
              ++ environment ++ "' to clear user data")],
           RunResult.exit 1)
        else
          let pp : List OAuthEffect × String :=
            if flagPassword = "" then
              ([OAuthEffect.printLine ("For Username: " ++ username),
                OAuthEffect.promptPassword], ext.promptPasswordInput)
            else
              ([], flagPassword)
          let password := pp.2
          let clientID := ext.getClientIDOfEnv environment
          let clientSecret := ext.getClientSecretOfEnv environment password
          tokenStep (intro ++ pp.1 ++
            [OAuthEffect.logLine (LogPrefixInfo ++ "Username: " ++ username),
             OAuthEffect.logLine (LogPrefixInfo ++ "ClientID: " ++ clientID)])
            username password clientID clientSecret
      else
        let pp : List OAuthEffect × String :=
          if flagPassword ≠ "" then
            ([], flagPassword)
          else
            ([OAuthEffect.printLine ("For username: " ++ username),
              OAuthEffect.promptPassword], ext.promptPasswordInput)
        let password := pp.2
        let clientID := ext.getClientIDOfEnv environment
        let clientSecret := ext.getClientSecretOfEnv environment password
        tokenStep (intro ++ pp.1 ++
          [OAuthEffect.logLine (LogPrefixInfo ++ "Username: " ++ username),
           OAuthEffect.logLine (LogPrefixInfo ++ "ClientID: " ++ clientID)])
          username password clientID clientSecret
    else
      -- first use of the environment: collect fresh values, register, persist
      let username := missUsername ext flagUsername
      let password := missPassword ext flagUsername flagPassword
      let announce := OAuthEffect.printLine ("\nUsername: " ++ username ++ "\n")
      let r := GetClientIDSecret ext username password registrationEndpoint
      match r.2 with
      | RunResult.exit c =>
        (intro ++ missPromptTrace flagUsername flagPassword ++ [announce] ++ r.1,
         RunResult.exit c)
      | RunResult.ret (clientID, clientSecret, rerr) =>
        let etr := match rerr with
          | some e => [OAuthEffect.printLine ("Error: " ++ e)]
          | none => []
        let prints := [OAuthEffect.printLine ("ClientID: " ++ clientID),
                       OAuthEffect.printLine ("ClientSecret: " ++ clientSecret)]
        let encryptedClientSecret := Encrypt (GetMD5Hash password) clientSecret
        let envKeys := EnvKeys.mk clientID encryptedClientSecret username
        tokenStep (intro ++ missPromptTrace flagUsername flagPassword ++ [announce] ++ r.1
            ++ etr ++ prints ++ [OAuthEffect.persistKeys environment envKeys])
          username password clientID clientSecret
  else
    if environment = "" then
      ([], RunResult.ret ("", "",
        some ("no environment specified. Either specify it using the -e flag or name one of "
          ++ "the environments in '" ++ MainConfigFileName ++ "' to 'default'")))
    else
      ([], RunResult.ret ("", "",
        some ("Details incorrect/unavailable for environment '" ++ environment
          ++ "' in " ++ mainConfigFilePath)))

/-! ## Concrete fixtures used by witnesses and counterexamples -/

/-- A keystore whose single private-key entry always resolves. -/
def ksFixture : KeyStore :=
  ⟨fun _ _ => Except.ok ⟨[48, 130, 1, 84]⟩⟩

/-- Secret-pipeline external world in which every collaborator succeeds:
the keystore loads, the entry parses to an RSA key, and the RSA primitive
returns the ciphertext bytes `[1, 2, 3]`. -/
def extSecretsOk : SecretsExt :=
  { base64Decode := fun _ => []
    osOpen := fun _ => Except.ok ()
    ksLoad := fun _ _ => Except.ok ksFixture
    parsePKCS8 := fun _ => Except.ok (ParsedKey.rsa ⟨⟨3233, 17⟩⟩)
    rsaEncrypt := fun _ _ _ => Except.ok [1, 2, 3]
    readPropsFile := fun _ => [] }

/-- Like `extSecretsOk` but the PKCS#8 container parses to an ECDSA key. -/
def extSecretsNonRSA : SecretsExt :=
  { extSecretsOk with
    parsePKCS8 := fun _ => Except.ok (ParsedKey.other "*ecdsa.PrivateKey") }

/-- Like `extSecretsOk` but the keystore file does not open. -/
def extSecretsOpenFail : SecretsExt :=
  { extSecretsOk with
    osOpen := fun _ => Except.error "open keystore.jks: no such file or directory" }

/-- Like `extSecretsOk` but the RSA primitive rejects the plaintext. -/
def extSecretsEncFail : SecretsExt :=
  { extSecretsOk with
    rsaEncrypt := fun _ _ _ =>
      Except.error "crypto/rsa: message too long for RSA public key size" }

/-- A single-value secret config with a whitespace-only plaintext value. -/
def cfgC1 : SecretConfig :=
  ⟨"console", "AUTO", "inline", "", "db", " "⟩

/-- A single-value secret config targeting the `k8` output form. -/
def cfgK8 : SecretConfig :=
  ⟨"K8", "RSA/ECB/OAEPWithSHA1AndMGF1Padding", "inline", "", "db", "s3cr3t"⟩

/-- A 200 OK registration/token response. -/
def resp200 : HTTPResponse := ⟨200, "200 OK", "regbody", ""⟩

/-- A 401 Unauthorized response. -/
def resp401 : HTTPResponse := ⟨401, "401 Unauthorized", "Unauthorized", "invalid credentials"⟩

/-- A 500 response (neither success nor 401). -/
def resp500 : HTTPResponse := ⟨500, "500 Internal Server Error", "oops", "server error"⟩

/-- Resolver external world: environment `dev` is configured, has no
cached record, and every POST answers 200 OK. -/
def extOAuthBase : OAuthExt :=
  { envExistsInMainConfig := fun _ => true
    getAPIMEndpoint := fun _ => "https://apim"
    getRegistrationEndpoint := fun _ => "https://reg"
    getTokenEndpoint := fun _ => "https://token"
    envExistsInKeysFile := fun _ => false
    getUsernameOfEnv := fun _ => "cacheduser"
    getClientIDOfEnv := fun _ => "cachedCID"
    getClientSecretOfEnv := fun _ _ => "cachedSecret"
    promptUsernameInput := " admin "
    promptPasswordInput := "promptpw"
    invokePOST := fun _ _ _ => Except.ok resp200
    unmarshalReg := fun _ => (⟨"cid123", "cs456"⟩, none)
    unmarshalTokenMap := fun _ => [("access_token", "tok")] }

/-- Like `extOAuthBase` but with a cached credential record. -/
def extOAuthCached : OAuthExt :=
  { extOAuthBase with envExistsInKeysFile := fun _ => true }

/-- Like `extOAuthBase` but every POST answers 401. -/
def extOAuth401 : OAuthExt :=
  { extOAuthBase with invokePOST := fun _ _ _ => Except.ok resp401 }

/-- Like `extOAuthBase` but every POST answers 500. -/
def extOAuth500 : OAuthExt :=
  { extOAuthBase with invokePOST := fun _ _ _ => Except.ok resp500 }

/-! ## Helper lemmas about the secret pipeline -/

theorem encrypt_trace_scheme (scheme : Scheme) (ext : SecretsExt) (key : RsaPublicKey) :
    ∀ (l : List (String × String)) (eff : SecretsEffect),
      eff ∈ (encrypt scheme ext key l).1 →
      ∃ a p, eff = SecretsEffect.cryptoCall scheme a p := by
  intro l
  induction l with
  | nil => intro eff h; simp [encrypt] at h
  | cons hd tl ih =>
    intro eff h
    obtain ⟨a, p⟩ := hd
    simp only [encrypt] at h
    cases hfe : encryptFunction scheme ext key p with
    | error e =>
      rw [hfe] at h
      simp at h
      exact ⟨a, p, h⟩
    | ok c =>
      rw [hfe] at h
      simp at h
      rcases h with h | h
      · exact ⟨a, p, h⟩
      · exact ih eff h

theorem encrypt_error_of_mem (scheme : Scheme) (ext : SecretsExt) (key : RsaPublicKey) :
    ∀ (l : List (String × String)) (a p e : String), (a, p) ∈ l →
      encryptFunction scheme ext key p = Except.error e →
      ∃ e', (encrypt scheme ext key l).2 = Except.error e' := by
  intro l
  induction l with
  | nil => intro a p e h; simp at h
  | cons hd tl ih =>
    intro a p e hmem hfe
    obtain ⟨a0, p0⟩ := hd
    cases hok : encryptFunction scheme ext key p0 with
    | error e0 => exact ⟨e0, by simp [encrypt, hok]⟩
    | ok c =>
      rcases List.mem_cons.mp hmem with heq | hmem'
      · obtain ⟨h1, h2⟩ := Prod.mk.injEq .. ▸ heq
        rw [h2] at hfe
        rw [hfe] at hok
        cases hok
      · obtain ⟨e', he'⟩ := ih a p e hmem' hfe
        exact ⟨e', by simp [encrypt, hok, he']⟩

theorem printSecretsToConsole_no_crypto (secrets : List (String × String)) :
    ∀ s a p, SecretsEffect.cryptoCall s a p ∉ printSecretsToConsole secrets := by
  intro s a p h
  simp [printSecretsToConsole] at h

theorem printSecretsToPropertiesFile_no_crypto (currentDir : String)
    (secrets : List (String × String)) :
    ∀ s a p, SecretsEffect.cryptoCall s a p ∉ printSecretsToPropertiesFile currentDir secrets := by
  intro s a p h
  simp [printSecretsToPropertiesFile] at h

theorem printSecretsToYamlFile_no_crypto (currentDir : String)
    (secrets : List (String × String)) :
    ∀ s a p, SecretsEffect.cryptoCall s a p ∉ printSecretsToYamlFile currentDir secrets := by
  intro s a p h
  simp [printSecretsToYamlFile] at h

/-! ## Claim theorems for the secret pipeline -/

/-- C1, counterexample.  The claim says `EncryptSecrets` itself rejects a
mapping whose value is whitespace-only before any cryptographic call.  On
the concrete single-entry mapping `db ↦ " "` (whitespace-only after
trimming), `EncryptSecrets` performs the OAEP cryptographic call and
returns success — no validation error is raisedary and no diagnostic is
printed before the call. -/
theorem C1_counterexample :
    ((TrimSpace " ").length = 0)
    ∧ EncryptSecrets extSecretsOk "/w" "ks.properties" cfgC1 =
        ([SecretsEffect.cryptoCall Scheme.oaep "db" " ",
          SecretsEffect.consoleLine "db : AQID"], GoResult.ok ()) := by
  constructor
  · decide
  · rfl

/-- C1, amended.  The per-key emptiness validation belongs to the shared
validator `IsMapWithNonEmptyValues` (applied by callers before invoking
`EncryptSecrets`, which itself performs no such validation): for every
mapping containing a value that is empty after whitespace trimming, the
validator returns `false` and prints a visible `Invalid input for <key>`
diagnostic for a key whose value is empty. -/
theorem C1_amended_validator (inputs : List (String × String)) (key value : String)
    (hmem : (key, value) ∈ inputs) (hempty : (TrimSpace value).length = 0) :
    (IsMapWithNonEmptyValues inputs).2 = false
    ∧ ∃ k v, (k, v) ∈ inputs ∧ (TrimSpace v).length = 0 ∧
        SecretsEffect.consoleLine ("Invalid input for " ++ k) ∈ (IsMapWithNonEmptyValues inputs).1 := by
  induction inputs with
  | nil => cases hmem
  | cons hd tl ih =>
    obtain ⟨k0, v0⟩ := hd
    by_cases h0 : (TrimSpace v0).length = 0
    · refine ⟨by simp [IsMapWithNonEmptyValues, h0], k0, v0, List.mem_cons_self .., h0, ?_⟩
      simp [IsMapWithNonEmptyValues, h0]
    · rcases List.mem_cons.mp hmem with heq | hmem'
      · obtain ⟨h1, h2⟩ := Prod.mk.injEq .. ▸ heq
        exact absurd (h2 ▸ hempty) h0
      · obtain ⟨hfalse, k, v, hm, hv, hline⟩ := ih hmem'
        refine ⟨by simp [IsMapWithNonEmptyValues, h0, hfalse], k, v,
          List.mem_cons_of_mem _ hm, hv, ?_⟩
        simpa [IsMapWithNonEmptyValues, h0] using hline

/-- C1, witness for the amended theorem at the mapping `[(db, " ")]`. -/
theorem C1_amended_validator_witness :
    (IsMapWithNonEmptyValues [("db", " ")]).2 = false
    ∧ ∃ k v, (k, v) ∈ [("db", " ")] ∧ (TrimSpace v).length = 0 ∧
        SecretsEffect.consoleLine ("Invalid input for " ++ k) ∈ (IsMapWithNonEmptyValues [("db", " ")]).1 :=
  C1_amended_validator [("db", " ")] "db" " " (by simp) (by decide)

/-- C6 (code bug).  `getEncryptionKey` executes the type assertion
`key.(*rsa.PrivateKey)` before checking the error of
`x509.ParsePKCS8PrivateKey`.  First conjunct: on a keystore entry whose
container parses to a non-RSA (ECDSA) key the function panics with an
interface-conversion runtime error instead of returning the
`Parsing Key Entry` error the claim (and the code's own dead error branch)
describe.  Second conjunct: every `error` result of `getEncryptionKey` is
a `Reading Key Store` or `Reading Key Entry` error — the
`Parsing Key Entry` branch is unreachable. -/
theorem C6_parsing_key_entry_unreachable :
    getEncryptionKey extSecretsNonRSA [] =
      GoResult.panicked "interface conversion: interface \x7b\x7d is *ecdsa.PrivateKey, not *rsa.PrivateKey"
    ∧ ∀ (ext : SecretsExt) (m : List (String × String)) (e : String),
        getEncryptionKey ext m = GoResult.error e →
        (∃ e1, e = "Reading Key Store: " ++ e1) ∨ (∃ e2, e = "Reading Key Entry: " ++ e2) := by
  constructor
  · rfl
  · intro ext m e h
    simp only [getEncryptionKey] at h
    split at h
    · exact Or.inl ⟨_, (GoResult.error.injEq .. ▸ h).symm⟩
    · split at h
      · exact Or.inr ⟨_, (GoResult.error.injEq .. ▸ h).symm⟩
      · split at h <;> cases h

/-- C6, witness for the second (universally quantified) conjunct: with a
keystore file that fails to open, the error is a `Reading Key Store`
error. -/
theorem C6_parsing_key_entry_unreachable_witness :
    (∃ e1, "Reading Key Store: open keystore.jks: no such file or directory"
        = "Reading Key Store: " ++ e1)
    ∨ (∃ e2, "Reading Key Store: open keystore.jks: no such file or directory"
        = "Reading Key Entry: " ++ e2) :=
  C6_parsing_key_entry_unreachable.2 extSecretsOpenFail [] _ rfl

/-- C8.  Every cryptographic call made by `EncryptSecrets` uses the
PKCS1v15 scheme exactly when the configured algorithm label
case-insensitively equals `RSA/ECB/PKCS1Padding`, and the OAEP variant
(SHA-1/MGF1, no label, base64 output) for every other label — including
labels matching neither recognized algorithm name. -/
theorem C8_scheme_selection (ext : SecretsExt) (currentDir ksf : String)
    (cfg : SecretConfig) (eff : SecretsEffect) (s : Scheme) (a p : String)
    (hmem : eff ∈ (EncryptSecrets ext currentDir ksf cfg).1)
    (heff : eff = SecretsEffect.cryptoCall s a p) :
    (s = Scheme.pkcs1v15 ↔ equalFold cfg.Algorithm "RSA/ECB/PKCS1Padding" = true)
    ∧ (s = Scheme.oaep ↔ ¬ equalFold cfg.Algorithm "RSA/ECB/PKCS1Padding" = true) := by
  subst heff
  cases hg : getEncryptionKey ext (ext.readPropsFile ksf) with
  | error e => simp [EncryptSecrets, hg] at hmem
  | panicked m => simp [EncryptSecrets, hg] at hmem
  | ok key =>
    have hscheme : s = (if IsPKCS1Encryption cfg.Algorithm then Scheme.pkcs1v15 else Scheme.oaep) := by
      simp only [EncryptSecrets, hg] at hmem
      cases henc : (encrypt (if IsPKCS1Encryption cfg.Algorithm then Scheme.pkcs1v15 else Scheme.oaep)
          ext key (getPlainTextSecrets ext cfg)).2 with
      | error e =>
        rw [henc] at hmem
        simp only [] at hmem
        obtain ⟨a', p', hcc⟩ := encrypt_trace_scheme _ ext key _ _ hmem
        exact (SecretsEffect.cryptoCall.injEq .. ▸ hcc).1
      | ok m =>
        rw [henc] at hmem
        by_cases hk8 : IsK8 cfg.OutputType
        · simp only [hk8, if_true] at hmem
          rcases List.mem_append.mp hmem with hmem' | hmem'
          · obtain ⟨a', p', hcc⟩ := encrypt_trace_scheme _ ext key _ _ hmem'
            exact (SecretsEffect.cryptoCall.injEq .. ▸ hcc).1
          · exact absurd hmem' (printSecretsToYamlFile_no_crypto _ _ _ _ _)
        · by_cases hfile : IsFile cfg.OutputType
          · simp only [hk8, hfile, if_true, if_false, Bool.false_eq_true] at hmem
            rcases List.mem_append.mp hmem with hmem' | hmem'
            · obtain ⟨a', p', hcc⟩ := encrypt_trace_scheme _ ext key _ _ hmem'
              exact (SecretsEffect.cryptoCall.injEq .. ▸ hcc).1
            · exact absurd hmem' (printSecretsToPropertiesFile_no_crypto _ _ _ _ _)
          · simp only [hk8, hfile, if_false, Bool.false_eq_true] at hmem
            rcases List.mem_append.mp hmem with hmem' | hmem'
            · obtain ⟨a', p', hcc⟩ := encrypt_trace_scheme _ ext key _ _ hmem'
              exact (SecretsEffect.cryptoCall.injEq .. ▸ hcc).1
            · exact absurd hmem' (printSecretsToConsole_no_crypto _ _ _ _)
    by_cases halg : IsPKCS1Encryption cfg.Algorithm
    · have : equalFold cfg.Algorithm "RSA/ECB/PKCS1Padding" = true := halg
      rw [hscheme]
      simp [halg, this]
    · have : ¬ equalFold cfg.Algorithm "RSA/ECB/PKCS1Padding" = true := halg
      rw [hscheme]
      simp [halg, this]

/-- C8, witness: with the all-lowercase label `rsa/ecb/pkcs1padding` the
call recorded in the trace uses PKCS1v15. -/
theorem C8_scheme_selection_witness :
    (Scheme.pkcs1v15 = Scheme.pkcs1v15 ↔ equalFold "rsa/ecb/pkcs1padding" "RSA/ECB/PKCS1Padding" = true)
    ∧ (Scheme.pkcs1v15 = Scheme.oaep ↔ ¬ equalFold "rsa/ecb/pkcs1padding" "RSA/ECB/PKCS1Padding" = true) :=
  C8_scheme_selection extSecretsOk "/w" "ks.properties"
    ⟨"console", "rsa/ecb/pkcs1padding", "inline", "", "db", "x"⟩
    (SecretsEffect.cryptoCall Scheme.pkcs1v15 "db" "x") Scheme.pkcs1v15 "db" "x"
    (by decide) rfl

/-- C9.  When the output form is `k8` (matched case-insensitively) and
encryption succeeded with encrypted mapping `m`, `EncryptSecrets` writes a
secret manifest with apiVersion `v1`, kind `Secret`, type `Opaque`,
metadata name `wso2misecret`, namespace `default`, and stringData equal to
`m`, to `wso2mi-secrets.yaml` inside the `security` subdirectory, and
returns success. -/
theorem C9_k8_manifest (ext : SecretsExt) (currentDir ksf : String) (cfg : SecretConfig)
    (key : RsaPublicKey) (m : List (String × String))
    (hkey : getEncryptionKey ext (ext.readPropsFile ksf) = GoResult.ok key)
    (henc : (encrypt (if IsPKCS1Encryption cfg.Algorithm then Scheme.pkcs1v15 else Scheme.oaep)
        ext key (getPlainTextSecrets ext cfg)).2 = Except.ok m)
    (hk8 : IsK8 cfg.OutputType = true) :
    SecretsEffect.yamlFile (getSecretFilePath currentDir "wso2mi-secrets.yaml")
      { APIVerion := "v1", Kind := "Secret",
        MetaData := { Name := "wso2misecret", Namespace := "default" },
        StringData := m, Type' := "Opaque" }
      ∈ (EncryptSecrets ext currentDir ksf cfg).1
    ∧ (EncryptSecrets ext currentDir ksf cfg).2 = GoResult.ok () := by
  constructor <;> simp [EncryptSecrets, hkey, henc, hk8, printSecretsToYamlFile]

/-- C9, witness at the secrets mapping `db ↦ s3cr3t` with output form `K8`
(case-insensitive match) and ciphertext `AQID` (base64 of `[1,2,3]`). -/
theorem C9_k8_manifest_witness :
    SecretsEffect.yamlFile (getSecretFilePath "/w" "wso2mi-secrets.yaml")
      { APIVerion := "v1", Kind := "Secret",
        MetaData := { Name := "wso2misecret", Namespace := "default" },
        StringData := [("db", "AQID")], Type' := "Opaque" }
      ∈ (EncryptSecrets extSecretsOk "/w" "ks.properties" cfgK8).1
    ∧ (EncryptSecrets extSecretsOk "/w" "ks.properties" cfgK8).2 = GoResult.ok () :=
  C9_k8_manifest extSecretsOk "/w" "ks.properties" cfgK8 ⟨3233, 17⟩ [("db", "AQID")]
    rfl rfl (by decide)

/-- C10.  `EncryptSecrets` is atomic on encryption failure: if the chosen
encrypt function fails on the value of any alias of the plaintext mapping,
`EncryptSecrets` returns an error and its trace holds only the attempted
cryptographic calls — no console line, no properties file and no manifest
file. -/
theorem C10_atomic_on_failure (ext : SecretsExt) (currentDir ksf : String)
    (cfg : SecretConfig) (key : RsaPublicKey) (a p e : String)
    (hkey : getEncryptionKey ext (ext.readPropsFile ksf) = GoResult.ok key)
    (hmem : (a, p) ∈ getPlainTextSecrets ext cfg)
    (hfe : encryptFunction (if IsPKCS1Encryption cfg.Algorithm then Scheme.pkcs1v15 else Scheme.oaep)
        ext key p = Except.error e) :
    (∃ e', (EncryptSecrets ext currentDir ksf cfg).2 = GoResult.error e')
    ∧ ∀ eff ∈ (EncryptSecrets ext currentDir ksf cfg).1,
        ∃ s al pl, eff = SecretsEffect.cryptoCall s al pl := by
  obtain ⟨e', he'⟩ := encrypt_error_of_mem _ ext key _ a p e hmem hfe
  constructor
  · exact ⟨e', by simp [EncryptSecrets, hkey, he']⟩
  · intro eff heff
    simp only [EncryptSecrets, hkey, he'] at heff
    obtain ⟨al, pl, hcc⟩ := encrypt_trace_scheme _ ext key _ _ heff
    exact ⟨_, al, pl, hcc⟩

/-- C10, witness: with an RSA primitive that rejects the plaintext, the
single-entry run returns the error and emits nothing but the attempted
call. -/
theorem C10_atomic_on_failure_witness :
    (∃ e', (EncryptSecrets extSecretsEncFail "/w" "ks.properties" cfgC1).2 = GoResult.error e')
    ∧ ∀ eff ∈ (EncryptSecrets extSecretsEncFail "/w" "ks.properties" cfgC1).1,
        ∃ s al pl, eff = SecretsEffect.cryptoCall s al pl :=
  C10_atomic_on_failure extSecretsEncFail "/w" "ks.properties" cfgC1 ⟨3233, 17⟩
    "db" " " "crypto/rsa: message too long for RSA public key size"
    rfl (by simp [getPlainTextSecrets, cfgC1, IsFile, equalFold, goToLower]) rfl

/-! ## Helper lemmas about the modelled symmetric cipher -/

theorem toNat_ofNat_of_valid (n : Nat) (h : n.isValidChar) :
    (Char.ofNat n).toNat = n := by
  simp [Char.ofNat, h, Char.ofNatAux, Char.toNat, UInt32.toNat]

theorem toNat_ofNat_of_invalid (n : Nat) (h : ¬ n.isValidChar) :
    (Char.ofNat n).toNat = 0 := by
  simp [Char.ofNat, h, Char.toNat, UInt32.toNat]

theorem hexDigit_bounds (n : Nat) :
    0x30 ≤ (hexDigit n).toNat ∧ (hexDigit n).toNat ≤ 0x66 := by
  have h16 : n % 16 < 16 := Nat.mod_lt _ (by norm_num)
  have hall : ∀ r, r < 16 →
      0x30 ≤ ("0123456789abcdef".data.getD r '0').toNat
      ∧ ("0123456789abcdef".data.getD r '0').toNat ≤ 0x66 := by decide
  have := hall (n % 16) h16
  simpa [hexDigit] using this

theorem GetMD5Hash_data (pw : String) :
    (GetMD5Hash pw).data ≠ []
    ∧ ∀ c ∈ (GetMD5Hash pw).data, 0x30 ≤ c.toNat ∧ c.toNat ≤ 0x66 := by
  unfold GetMD5Hash
  constructor
  · simp
  · intro c hc
    simp only [String.data] at hc
    obtain ⟨i, _, hi⟩ := List.mem_map.mp hc
    exact hi ▸ hexDigit_bounds _

theorem Encrypt_ne_of_key (key text : String)
    (hk : ∀ c ∈ key.data, 0x30 ≤ c.toNat ∧ c.toNat ≤ 0x66)
    (hkne : key.data ≠ []) (ht : text.data ≠ []) :
    Encrypt key text ≠ text := by
  intro heq
  obtain ⟨c, rest, hdata⟩ : ∃ c rest, text.data = c :: rest := by
    cases hcase : text.data with
    | nil => exact absurd hcase ht
    | cons c rest => exact ⟨c, rest, rfl⟩
  obtain ⟨k0, ktail, hkdata⟩ : ∃ k0 kt, key.data = k0 :: kt := by
    cases hcase : key.data with
    | nil => exact absurd hcase hkne
    | cons k0 kt => exact ⟨k0, kt, rfl⟩
  have hdataeq := congrArg String.data heq
  simp only [Encrypt, String.data] at hdataeq
  have hhead := congrArg (fun l => l.headD 'Z') hdataeq
  rw [hdata] at hhead
  simp only [List.length_cons, List.range_succ_eq_map, List.map_cons, List.headD_cons,
    List.getD_cons_zero, Nat.zero_mod, hkdata] at hhead
  -- hhead : Char.ofNat (c.toNat ^^^ k0.toNat) = c
  have hk0 := hk k0 (hkdata ▸ List.mem_cons_self ..)
  by_cases hv : Nat.isValidChar (c.toNat ^^^ k0.toNat)
  · have h1 := congrArg Char.toNat hhead
    rw [toNat_ofNat_of_valid _ hv] at h1
    have h2 : k0.toNat = 0 := by
      have := @Nat.xor_right_inj c.toNat k0.toNat 0
      simp only [Nat.xor_zero] at this
      exact this.mp h1
    omega
  · have h1 := congrArg Char.toNat hhead
    rw [toNat_ofNat_of_invalid _ hv] at h1
    have hc0 : c.toNat = 0 := h1.symm
    rw [hc0, Nat.zero_xor] at hv
    exact hv (Or.inl (by omega))

theorem Encrypt_GetMD5Hash_ne (pw s : String) (hs : s ≠ "") :
    Encrypt (GetMD5Hash pw) s ≠ s := by
  apply Encrypt_ne_of_key
  · exact (GetMD5Hash_data pw).2
  · exact (GetMD5Hash_data pw).1
  · intro hnil
    apply hs
    cases s with
    | mk l => cases hnil; rfl

/-! ## Helper lemmas about the OAuth client -/

/-- The headers `GetClientIDSecret` sends. -/
def regHeaders (u p : String) : List (String × String) :=
  [(HeaderContentType, HeaderValueApplicationJSON),
   (HeaderAuthorization, "Basic " ++ GetBase64EncodedCredentials u p)]

theorem GetClientIDSecret_401 (ext : OAuthExt) (u p url : String) (resp : HTTPResponse)
    (hpost : ∀ h b, ext.invokePOST url h b = Except.ok resp)
    (h401 : resp.statusCode = 401) :
    GetClientIDSecret ext u p url =
      ([OAuthEffect.httpPost url (regHeaders u p) registrationRequestBody,
        OAuthEffect.logLine ("Getting ClientID, ClientSecret: Status - " ++ resp.status),
        OAuthEffect.printLine ("Error: " ++ resp.errorBody),
        OAuthEffect.printLine ("Body: " ++ resp.body),
        OAuthEffect.printLine "Incorrect Username/Password combination."],
       RunResult.exit 1) := by
  simp only [GetClientIDSecret, regHeaders]
  rw [hpost]
  simp [h401]

theorem GetClientIDSecret_2xx (ext : OAuthExt) (u p url : String) (resp : HTTPResponse)
    (hpost : ∀ h b, ext.invokePOST url h b = Except.ok resp)
    (hst : resp.statusCode = 200 ∨ resp.statusCode = 201) :
    GetClientIDSecret ext u p url =
      ([OAuthEffect.httpPost url (regHeaders u p) registrationRequestBody,
        OAuthEffect.logLine ("Getting ClientID, ClientSecret: Status - " ++ resp.status)],
       RunResult.ret ((ext.unmarshalReg resp.body).1.ClientID,
         (ext.unmarshalReg resp.body).1.ClientSecret,
         (ext.unmarshalReg resp.body).2)) := by
  simp only [GetClientIDSecret, regHeaders]
  rw [hpost]
  rcases hst with h | h <;> simp [h]

theorem GetClientIDSecret_other (ext : OAuthExt) (u p url : String) (resp : HTTPResponse)
    (hpost : ∀ h b, ext.invokePOST url h b = Except.ok resp)
    (hn200 : resp.statusCode ≠ 200) (hn201 : resp.statusCode ≠ 201)
    (hn401 : resp.statusCode ≠ 401) :
    GetClientIDSecret ext u p url =
      ([OAuthEffect.httpPost url (regHeaders u p) registrationRequestBody,
        OAuthEffect.logLine ("Getting ClientID, ClientSecret: Status - " ++ resp.status),
        OAuthEffect.printLine ("Error: " ++ resp.errorBody),
        OAuthEffect.printLine ("Body: " ++ resp.body)],
       RunResult.ret ("", "", some ("Request didn't respond 200 OK: " ++ resp.status))) := by
  simp only [GetClientIDSecret, regHeaders]
  rw [hpost]
  simp [hn200, hn201, hn401]

/-- Every effect of `GetClientIDSecret` is the registration POST itself or
a print/log line — in particular it never persists a record. -/
theorem GetClientIDSecret_trace_shape (ext : OAuthExt) (u p url : String) :
    ∀ eff ∈ (GetClientIDSecret ext u p url).1,
      (∃ h b, eff = OAuthEffect.httpPost url h b)
      ∨ (∃ s, eff = OAuthEffect.printLine s)
      ∨ (∃ s, eff = OAuthEffect.logLine s) := by
  intro eff h
  simp only [GetClientIDSecret] at h
  split at h
  · simp at h
    rcases h with h | h
    · exact Or.inl ⟨_, _, h⟩
    · exact Or.inr (Or.inl ⟨_, h⟩)
  · split at h
    · simp at h
      rcases h with h | h
      · exact Or.inl ⟨_, _, h⟩
      · exact Or.inr (Or.inr ⟨_, h⟩)
    · split at h
      · simp at h
        rcases h with h | h | h | h | h
        · exact Or.inl ⟨_, _, h⟩
        · exact Or.inr (Or.inr ⟨_, h⟩)
        · exact Or.inr (Or.inl ⟨_, h⟩)
        · exact Or.inr (Or.inl ⟨_, h⟩)
        · exact Or.inr (Or.inl ⟨_, h⟩)
      · simp at h
        rcases h with h | h | h | h
        · exact Or.inl ⟨_, _, h⟩
        · exact Or.inr (Or.inr ⟨_, h⟩)
        · exact Or.inr (Or.inl ⟨_, h⟩)
        · exact Or.inr (Or.inl ⟨_, h⟩)

/-- Every effect of `GetOAuthTokens` is the token POST itself or a
print/log line — never a persisted record. -/
theorem GetOAuthTokens_trace_shape (ext : OAuthExt) (u p c url : String) :
    ∀ eff ∈ (GetOAuthTokens ext u p c url).1,
      (∃ h b, eff = OAuthEffect.httpPost url h b)
      ∨ (∃ s, eff = OAuthEffect.printLine s)
      ∨ (∃ s, eff = OAuthEffect.logLine s) := by
  intro eff h
  simp only [GetOAuthTokens] at h
  split at h
  · simp at h
    rcases h with h | h | h
    · exact Or.inr (Or.inr ⟨_, h⟩)
    · exact Or.inl ⟨_, _, h⟩
    · exact Or.inr (Or.inl ⟨_, h⟩)
  · split at h
    · simp at h
      rcases h with h | h | h
      · exact Or.inr (Or.inr ⟨_, h⟩)
      · exact Or.inl ⟨_, _, h⟩
      · exact Or.inr (Or.inl ⟨_, h⟩)
    · simp at h
      rcases h with h | h
      · exact Or.inr (Or.inr ⟨_, h⟩)
      · exact Or.inl ⟨_, _, h⟩

/-- The token POST effect always appears in the `GetOAuthTokens` trace
(the request is recorded before the status is examined). -/
theorem GetOAuthTokens_post_mem (ext : OAuthExt) (u p c url : String) :
    ∃ h b, OAuthEffect.httpPost url h b ∈ (GetOAuthTokens ext u p c url).1 := by
  refine ⟨[(HeaderContentType, HeaderValueXWWWFormUrlEncoded),
           (HeaderAuthorization, "Bearer " ++ c),
           (HeaderAccept, HeaderValueApplicationJSON)],
          "grant_type=password&username=" ++ u ++ "&password=" ++ p
            ++ "&validity_period=" ++ DefaultTokenValidityPeriod ++ "&scope=apim:api_view", ?_⟩
  simp only [GetOAuthTokens]
  split
  · simp
  · split <;> simp

/-- The prompt-collection effects of the cache-miss path contain neither a
POST nor a persisted record. -/
theorem missPromptTrace_shape (flagUsername flagPassword : String) :
    ∀ eff ∈ missPromptTrace flagUsername flagPassword,
      (∃ s, eff = OAuthEffect.printLine s)
      ∨ eff = OAuthEffect.promptUsername ∨ eff = OAuthEffect.promptPassword := by
  intro eff h
  simp only [missPromptTrace] at h
  split at h
  · split at h
    · simp at h
      rcases h with h | h
      · exact Or.inl ⟨_, h⟩
      · exact Or.inr (Or.inr h)
    · simp at h
  · simp at h
    rcases h with h | h
    · exact Or.inr (Or.inl h)
    · exact Or.inr (Or.inr h)

/-- The argument trace is contained in the `oauthTokenStep` trace. -/
theorem oauthTokenStep_mem_of_mem (ext : OAuthExt) (a t : String)
    (tr : List OAuthEffect) (u p cid cs : String) (eff : OAuthEffect)
    (h : eff ∈ tr) : eff ∈ (oauthTokenStep ext a t tr u p cid cs).1 := by
  simp only [oauthTokenStep]
  split <;> simp [h]

/-- Everything `oauthTokenStep` adds beyond its argument trace is the token
POST or a print/log line. -/
theorem oauthTokenStep_mem_shape (ext : OAuthExt) (a t : String)
    (tr : List OAuthEffect) (u p cid cs : String) (eff : OAuthEffect)
    (h : eff ∈ (oauthTokenStep ext a t tr u p cid cs).1) :
    eff ∈ tr
    ∨ (∃ hd b, eff = OAuthEffect.httpPost t hd b)
    ∨ (∃ s, eff = OAuthEffect.printLine s)
    ∨ (∃ s, eff = OAuthEffect.logLine s) := by
  simp only [oauthTokenStep] at h
  split at h
  · rcases List.mem_append.mp h with h | h
    · exact Or.inl h
    · exact Or.inr (GetOAuthTokens_trace_shape ext u p _ t eff h)
  · rcases List.mem_append.mp h with h | h
    · rcases List.mem_append.mp h with h | h
      · exact Or.inl h
      · exact Or.inr (GetOAuthTokens_trace_shape ext u p _ t eff h)
    · simp at h
      exact Or.inr (Or.inr (Or.inr ⟨_, h⟩))

/-- The token POST appears in every `oauthTokenStep` trace. -/
theorem oauthTokenStep_token_post (ext : OAuthExt) (a t : String)
    (tr : List OAuthEffect) (u p cid cs : String) :
    ∃ hd b, OAuthEffect.httpPost t hd b ∈ (oauthTokenStep ext a t tr u p cid cs).1 := by
  obtain ⟨hd, b, hmem⟩ := GetOAuthTokens_post_mem ext u p (GetBase64EncodedCredentials cid cs) t
  refine ⟨hd, b, ?_⟩
  simp only [oauthTokenStep]
  split <;> simp [hmem]

/-! ## Claim theorems for the credential resolver -/

/-- C2.  With a cached record present and a non-empty flag username that
differs from the cached username, both resolvers abort with a process exit
(after printing the mismatch diagnostic and the reset instruction) and
their traces contain no HTTP request at all — neither a registration
request nor a token request. -/
theorem C2_credential_mismatch (ext : OAuthExt)
    (environment flagUsername flagPassword mcf ekf : String)
    (hmain : ext.envExistsInMainConfig environment = true)
    (hkeys : ext.envExistsInKeysFile environment = true)
    (hfu : flagUsername ≠ "")
    (hne : flagUsername ≠ ext.getUsernameOfEnv environment) :
    ((ExecutePreCommandWithBasicAuth ext environment flagUsername flagPassword mcf ekf).2
        = RunResult.exit 1
      ∧ ∀ url h b, OAuthEffect.httpPost url h b ∉
          (ExecutePreCommandWithBasicAuth ext environment flagUsername flagPassword mcf ekf).1)
    ∧ ((ExecutePreCommandWithOAuth ext environment flagUsername flagPassword mcf ekf).2
        = RunResult.exit 1
      ∧ ∀ url h b, OAuthEffect.httpPost url h b ∉
          (ExecutePreCommandWithOAuth ext environment flagUsername flagPassword mcf ekf).1) := by
  refine ⟨⟨?_, ?_⟩, ⟨?_, ?_⟩⟩ <;>
    simp [ExecutePreCommandWithBasicAuth, ExecutePreCommandWithOAuth, hmain, hkeys, hfu, hne]

/-- C2, witness: environment `dev` has cached username `cacheduser`; flag
username `other` differs, so both resolvers exit without any request. -/
theorem C2_credential_mismatch_witness :
    ((ExecutePreCommandWithBasicAuth extOAuthCached "dev" "other" "" "mc" "ek").2
        = RunResult.exit 1
      ∧ ∀ url h b, OAuthEffect.httpPost url h b ∉
          (ExecutePreCommandWithBasicAuth extOAuthCached "dev" "other" "" "mc" "ek").1)
    ∧ ((ExecutePreCommandWithOAuth extOAuthCached "dev" "other" "" "mc" "ek").2
        = RunResult.exit 1
      ∧ ∀ url h b, OAuthEffect.httpPost url h b ∉
          (ExecutePreCommandWithOAuth extOAuthCached "dev" "other" "" "mc" "ek").1) :=
  C2_credential_mismatch extOAuthCached "dev" "other" "" "mc" "ek"
    rfl rfl (by decide) (by decide)

/-- C5.  When the environment has no cached record and the registration
endpoint answers HTTP 401, `ExecutePreCommandWithOAuth` exits the process
with the `Incorrect Username/Password combination.` diagnostic, and every
HTTP request in its trace is the registration request — no token request
is ever issued. -/
theorem C5_registration_401 (ext : OAuthExt)
    (environment flagUsername flagPassword mcf ekf : String) (resp : HTTPResponse)
    (hmain : ext.envExistsInMainConfig environment = true)
    (hkeys : ext.envExistsInKeysFile environment = false)
    (hpost : ∀ h b, ext.invokePOST (ext.getRegistrationEndpoint environment) h b
        = Except.ok resp)
    (h401 : resp.statusCode = 401) :
    (ExecutePreCommandWithOAuth ext environment flagUsername flagPassword mcf ekf).2
      = RunResult.exit 1
    ∧ OAuthEffect.printLine "Incorrect Username/Password combination."
        ∈ (ExecutePreCommandWithOAuth ext environment flagUsername flagPassword mcf ekf).1
    ∧ ∀ url h b, OAuthEffect.httpPost url h b
        ∈ (ExecutePreCommandWithOAuth ext environment flagUsername flagPassword mcf ekf).1 →
        url = ext.getRegistrationEndpoint environment := by
  have hreg := GetClientIDSecret_401 ext (missUsername ext flagUsername)
    (missPassword ext flagUsername flagPassword)
    (ext.getRegistrationEndpoint environment) resp hpost h401
  refine ⟨?_, ?_, ?_⟩
  · simp [ExecutePreCommandWithOAuth, hmain, hkeys, hreg]
  · simp [ExecutePreCommandWithOAuth, hmain, hkeys, hreg]
  · intro url h b hmem
    simp only [ExecutePreCommandWithOAuth, hmain, hkeys, hreg] at hmem
    simp at hmem
    rcases hmem with hmem | hmem
    · rcases missPromptTrace_shape _ _ _ hmem with ⟨s, hs⟩ | hs | hs <;> simp at hs
    · exact hmem.1

/-- C5, witness: every POST answers 401; the run exits with the
diagnostic and only the registration request appears in the trace. -/
theorem C5_registration_401_witness :
    (ExecutePreCommandWithOAuth extOAuth401 "dev" "admin" "adminpw" "mc" "ek").2
      = RunResult.exit 1
    ∧ OAuthEffect.printLine "Incorrect Username/Password combination."
        ∈ (ExecutePreCommandWithOAuth extOAuth401 "dev" "admin" "adminpw" "mc" "ek").1
    ∧ ∀ url h b, OAuthEffect.httpPost url h b
        ∈ (ExecutePreCommandWithOAuth extOAuth401 "dev" "admin" "adminpw" "mc" "ek").1 →
        url = extOAuth401.getRegistrationEndpoint "dev" :=
  C5_registration_401 extOAuth401 "dev" "admin" "adminpw" "mc" "ek" resp401
    rfl rfl (fun _ _ => rfl) rfl

/-- C3, counterexample.  The claim says every non-200/201 registration
response is fatal and the flow does not continue to persistence or token
exchange.  With every POST answering 500, `GetClientIDSecret` merely
returns an error, and the run persists an (empty) credential record and
issues the token request anyway. -/
theorem C3_counterexample :
    (GetClientIDSecret extOAuth500 "admin" "adminpw" "https://reg").2
      = RunResult.ret ("", "", some "Request didn't respond 200 OK: 500 Internal Server Error")
    ∧ OAuthEffect.persistKeys "dev" (EnvKeys.mk "" "" "admin")
        ∈ (ExecutePreCommandWithOAuth extOAuth500 "dev" "admin" "adminpw" "mc" "ek").1
    ∧ OAuthEffect.httpPost "https://token"
        [(HeaderContentType, HeaderValueXWWWFormUrlEncoded),
         (HeaderAuthorization, "Bearer " ++ GetBase64EncodedCredentials "" ""),
         (HeaderAccept, HeaderValueApplicationJSON)]
        ("grant_type=password&username=admin&password=adminpw&validity_period=3600&scope=apim:api_view")
        ∈ (ExecutePreCommandWithOAuth extOAuth500 "dev" "admin" "adminpw" "mc" "ek").1 := by
  refine ⟨by decide, by decide, by decide⟩

/-- C4, counterexample.  The claim says a credential record is persisted
only after successful registration.  With every POST answering 500,
registration returns an error, yet the run still persists a record (with
empty client id and secret) for the environment. -/
theorem C4_counterexample :
    (∃ e, (GetClientIDSecret extOAuth500 "admin" "adminpw" "https://reg").2
        = RunResult.ret ("", "", some e))
    ∧ OAuthEffect.persistKeys "dev" (EnvKeys.mk "" "" "admin")
        ∈ (ExecutePreCommandWithOAuth extOAuth500 "dev" "admin" "adminpw" "mc" "ek").1 :=
  ⟨⟨"Request didn't respond 200 OK: 500 Internal Server Error", by decide⟩, by decide⟩

/-- C3, amended.  Only a transport failure or HTTP 401 from registration
is fatal (process exit inside `GetClientIDSecret`).  For any other
non-200/201 status, `GetClientIDSecret` returns empty credentials together
with a `Request didn't respond 200 OK` error, which
`ExecutePreCommandWithOAuth` merely prints; the flow then continues to
persist an empty-credential record and to issue the token request. -/
theorem C3_amended_continuation (ext : OAuthExt)
    (environment flagUsername flagPassword mcf ekf : String) (resp : HTTPResponse)
    (hmain : ext.envExistsInMainConfig environment = true)
    (hkeys : ext.envExistsInKeysFile environment = false)
    (hpost : ∀ h b, ext.invokePOST (ext.getRegistrationEndpoint environment) h b
        = Except.ok resp)
    (hn200 : resp.statusCode ≠ 200) (hn201 : resp.statusCode ≠ 201)
    (hn401 : resp.statusCode ≠ 401) :
    (GetClientIDSecret ext (missUsername ext flagUsername)
        (missPassword ext flagUsername flagPassword)
        (ext.getRegistrationEndpoint environment)).2
      = RunResult.ret ("", "", some ("Request didn't respond 200 OK: " ++ resp.status))
    ∧ OAuthEffect.persistKeys environment
        (EnvKeys.mk ""
          (Encrypt (GetMD5Hash (missPassword ext flagUsername flagPassword)) "")
          (missUsername ext flagUsername))
        ∈ (ExecutePreCommandWithOAuth ext environment flagUsername flagPassword mcf ekf).1
    ∧ ∃ hd b, OAuthEffect.httpPost (ext.getTokenEndpoint environment) hd b
        ∈ (ExecutePreCommandWithOAuth ext environment flagUsername flagPassword mcf ekf).1 := by
  have hreg := GetClientIDSecret_other ext (missUsername ext flagUsername)
    (missPassword ext flagUsername flagPassword)
    (ext.getRegistrationEndpoint environment) resp hpost hn200 hn201 hn401
  refine ⟨by rw [hreg], ?_, ?_⟩
  · simp only [ExecutePreCommandWithOAuth, hmain, hkeys, hreg]
    simp only [eq_self_iff_true, if_true, Bool.false_eq_true, if_false]
    apply oauthTokenStep_mem_of_mem
    simp
  · simp only [ExecutePreCommandWithOAuth, hmain, hkeys, hreg]
    simp only [eq_self_iff_true, if_true, Bool.false_eq_true, if_false]
    exact oauthTokenStep_token_post ext _ _ _ _ _ _ _

/-- C3, witness for the amended theorem: every POST answers 500. -/
theorem C3_amended_continuation_witness :
    (GetClientIDSecret extOAuth500 (missUsername extOAuth500 "admin")
        (missPassword extOAuth500 "admin" "adminpw")
        (extOAuth500.getRegistrationEndpoint "dev")).2
      = RunResult.ret ("", "", some ("Request didn't respond 200 OK: " ++ resp500.status))
    ∧ OAuthEffect.persistKeys "dev"
        (EnvKeys.mk ""
          (Encrypt (GetMD5Hash (missPassword extOAuth500 "admin" "adminpw")) "")
          (missUsername extOAuth500 "admin"))
        ∈ (ExecutePreCommandWithOAuth extOAuth500 "dev" "admin" "adminpw" "mc" "ek").1
    ∧ ∃ hd b, OAuthEffect.httpPost (extOAuth500.getTokenEndpoint "dev") hd b
        ∈ (ExecutePreCommandWithOAuth extOAuth500 "dev" "admin" "adminpw" "mc" "ek").1 :=
  C3_amended_continuation extOAuth500 "dev" "admin" "adminpw" "mc" "ek" resp500
    rfl rfl (fun _ _ => rfl) (by decide) (by decide) (by decide)

/-- C4, amended.  On a cache miss (with the registration endpoint
reachable, answering status `resp`), a credential record is persisted
exactly when the registration call returns to the caller — i.e. for every
status other than 401, including error statuses like 500, in which case an
empty-credential record is persisted; only HTTP 401 (or a transport
failure) prevents persistence, because the process exits inside
`GetClientIDSecret`. -/
theorem C4_amended_persist_iff (ext : OAuthExt)
    (environment flagUsername flagPassword mcf ekf : String) (resp : HTTPResponse)
    (hmain : ext.envExistsInMainConfig environment = true)
    (hkeys : ext.envExistsInKeysFile environment = false)
    (hpost : ∀ h b, ext.invokePOST (ext.getRegistrationEndpoint environment) h b
        = Except.ok resp) :
    (∃ e k, OAuthEffect.persistKeys e k
        ∈ (ExecutePreCommandWithOAuth ext environment flagUsername flagPassword mcf ekf).1)
      ↔ resp.statusCode ≠ 401 := by
  constructor
  · rintro ⟨e, k, hmem⟩ h401
    have hreg := GetClientIDSecret_401 ext (missUsername ext flagUsername)
      (missPassword ext flagUsername flagPassword)
      (ext.getRegistrationEndpoint environment) resp hpost h401
    simp only [ExecutePreCommandWithOAuth, hmain, hkeys, hreg] at hmem
    simp at hmem
    rcases missPromptTrace_shape _ _ _ hmem with ⟨s, hs⟩ | hs | hs <;> simp at hs
  · intro h401
    by_cases hst : resp.statusCode = 200 ∨ resp.statusCode = 201
    · have hreg := GetClientIDSecret_2xx ext (missUsername ext flagUsername)
        (missPassword ext flagUsername flagPassword)
        (ext.getRegistrationEndpoint environment) resp hpost hst
      refine ⟨environment,
        EnvKeys.mk (ext.unmarshalReg resp.body).1.ClientID
          (Encrypt (GetMD5Hash (missPassword ext flagUsername flagPassword))
            (ext.unmarshalReg resp.body).1.ClientSecret)
          (missUsername ext flagUsername), ?_⟩
      simp only [ExecutePreCommandWithOAuth, hmain, hkeys, hreg]
      simp only [eq_self_iff_true, if_true, Bool.false_eq_true, if_false]
      apply oauthTokenStep_mem_of_mem
      simp
    · push_neg at hst
      have hreg := GetClientIDSecret_other ext (missUsername ext flagUsername)
        (missPassword ext flagUsername flagPassword)
        (ext.getRegistrationEndpoint environment) resp hpost hst.1 hst.2 h401
      refine ⟨environment,
        EnvKeys.mk ""
          (Encrypt (GetMD5Hash (missPassword ext flagUsername flagPassword)) "")
          (missUsername ext flagUsername), ?_⟩
      simp only [ExecutePreCommandWithOAuth, hmain, hkeys, hreg]
      simp only [eq_self_iff_true, if_true, Bool.false_eq_true, if_false]
      apply oauthTokenStep_mem_of_mem
      simp

/-- C4, witness for the amended theorem: with every POST answering 500 the
left-to-right reading persists a record (500 ≠ 401). -/
theorem C4_amended_persist_iff_witness :
    (∃ e k, OAuthEffect.persistKeys e k
        ∈ (ExecutePreCommandWithOAuth extOAuth500 "dev" "admin" "adminpw" "mc" "ek").1)
      ↔ resp500.statusCode ≠ 401 :=
  C4_amended_persist_iff extOAuth500 "dev" "admin" "adminpw" "mc" "ek" resp500
    rfl rfl (fun _ _ => rfl)

/-- C7.  On a cache miss whose registration returns (status 200/201), the
persisted record is exactly
`{clientID, Encrypt(MD5(password), clientSecret), username}`: the stored
secret equals the symmetric encryption of the fresh client secret under
the MD5 hash of the freshly supplied account password, no other record is
persisted (in particular the password itself appears in no persisted
field), and for a non-empty client secret the stored value differs from
the plaintext secret. -/
theorem C7_persisted_record_encrypted (ext : OAuthExt)
    (environment flagUsername flagPassword mcf ekf : String) (resp : HTTPResponse)
    (hmain : ext.envExistsInMainConfig environment = true)
    (hkeys : ext.envExistsInKeysFile environment = false)
    (hpost : ∀ h b, ext.invokePOST (ext.getRegistrationEndpoint environment) h b
        = Except.ok resp)
    (hst : resp.statusCode = 200 ∨ resp.statusCode = 201) :
    OAuthEffect.persistKeys environment
      (EnvKeys.mk (ext.unmarshalReg resp.body).1.ClientID
        (Encrypt (GetMD5Hash (missPassword ext flagUsername flagPassword))
          (ext.unmarshalReg resp.body).1.ClientSecret)
        (missUsername ext flagUsername))
      ∈ (ExecutePreCommandWithOAuth ext environment flagUsername flagPassword mcf ekf).1
    ∧ (∀ e k, OAuthEffect.persistKeys e k
        ∈ (ExecutePreCommandWithOAuth ext environment flagUsername flagPassword mcf ekf).1 →
        e = environment
        ∧ k = EnvKeys.mk (ext.unmarshalReg resp.body).1.ClientID
            (Encrypt (GetMD5Hash (missPassword ext flagUsername flagPassword))
              (ext.unmarshalReg resp.body).1.ClientSecret)
            (missUsername ext flagUsername))
    ∧ ((ext.unmarshalReg resp.body).1.ClientSecret ≠ "" →
        Encrypt (GetMD5Hash (missPassword ext flagUsername flagPassword))
            (ext.unmarshalReg resp.body).1.ClientSecret
          ≠ (ext.unmarshalReg resp.body).1.ClientSecret) := by
  have hreg := GetClientIDSecret_2xx ext (missUsername ext flagUsername)
    (missPassword ext flagUsername flagPassword)
    (ext.getRegistrationEndpoint environment) resp hpost hst
  refine ⟨?_, ?_, ?_⟩
  · simp only [ExecutePreCommandWithOAuth, hmain, hkeys, hreg]
    simp only [eq_self_iff_true, if_true, Bool.false_eq_true, if_false]
    apply oauthTokenStep_mem_of_mem
    simp
  · intro e k hmem
    simp only [ExecutePreCommandWithOAuth, hmain, hkeys, hreg] at hmem
    simp only [eq_self_iff_true, if_true, Bool.false_eq_true, if_false] at hmem
    rcases oauthTokenStep_mem_shape _ _ _ _ _ _ _ _ _ hmem with
      hmem | ⟨hd, b, heq⟩ | ⟨s, heq⟩ | ⟨s, heq⟩
    · simp at hmem
      rcases hmem with hmem | hmem
      · rcases missPromptTrace_shape _ _ _ hmem with ⟨s, hs⟩ | hs | hs <;> simp at hs
      · rcases hmem with hmem | hmem
        · cases hj : (ext.unmarshalReg resp.body).2 <;> rw [hj] at hmem <;> simp at hmem
        · exact hmem
    · simp at heq
    · simp at heq
    · simp at heq
  · intro hcs
    exact Encrypt_GetMD5Hash_ne _ _ hcs

/-- C7, witness: registration answers 200 with client pair
`cid123`/`cs456`; the persisted secret is the encryption under the hash of
the flag password and differs from the plaintext secret. -/
theorem C7_persisted_record_encrypted_witness :
    OAuthEffect.persistKeys "dev"
      (EnvKeys.mk (extOAuthBase.unmarshalReg resp200.body).1.ClientID
        (Encrypt (GetMD5Hash (missPassword extOAuthBase "admin" "adminpw"))
          (extOAuthBase.unmarshalReg resp200.body).1.ClientSecret)
        (missUsername extOAuthBase "admin"))
      ∈ (ExecutePreCommandWithOAuth extOAuthBase "dev" "admin" "adminpw" "mc" "ek").1
    ∧ (∀ e k, OAuthEffect.persistKeys e k
        ∈ (ExecutePreCommandWithOAuth extOAuthBase "dev" "admin" "adminpw" "mc" "ek").1 →
        e = "dev"
        ∧ k = EnvKeys.mk (extOAuthBase.unmarshalReg resp200.body).1.ClientID
            (Encrypt (GetMD5Hash (missPassword extOAuthBase "admin" "adminpw"))
              (extOAuthBase.unmarshalReg resp200.body).1.ClientSecret)
            (missUsername extOAuthBase "admin"))
    ∧ ((extOAuthBase.unmarshalReg resp200.body).1.ClientSecret ≠ "" →
        Encrypt (GetMD5Hash (missPassword extOAuthBase "admin" "adminpw"))
            (extOAuthBase.unmarshalReg resp200.body).1.ClientSecret
          ≠ (extOAuthBase.unmarshalReg resp200.body).1.ClientSecret) :=
  C7_persisted_record_encrypted extOAuthBase "dev" "admin" "adminpw" "mc" "ek" resp200
    rfl rfl (fun _ _ => rfl) (Or.inl rfl)

end ApimTooling
